import Mathlib

/-!
Verification of the execution orchestration engine of this repository.

The source under scrutiny:
  * executor.js  (runExecution): container lifecycle, stream demultiplexing,
    timeout enforcement, guaranteed teardown;
  * languages.js (LANGUAGES): language registry, per-language buildCommand;
  * bridge-server.js / main.js: transport adapters, dependency tokenizer,
    one-execution-at-a-time gate.

Bytes of the attached multiplexed stream are modelled as natural numbers,
lines of program output as byte lists, JS strings as Lean strings, and the
external world (container engine, file system) as an explicit environment of
outcomes for each fallible step.  Fallible JS steps return Except values; a
rejected promise escaping the orchestrator is an Except.error outcome.
-/

/-- The channel tag passed to the onLine callback. -/
inductive Channel : Type
  | stdout
  | stderr
  | system
deriving DecidableEq, Repr

/-- Model of buffer[i] on a byte buffer (undefined reads give 0; the code
only reads in-range indices). -/
def byteAt (b : List Nat) (i : Nat) : Nat := b.getD i 0

/-- Model of Buffer.readUInt32BE(off): big-endian 32-bit read. -/
def readUInt32BE (b : List Nat) (off : Nat) : Nat :=
  byteAt b off * 16777216 + byteAt b (off + 1) * 65536 +
    byteAt b (off + 2) * 256 + byteAt b (off + 3)

/-- Model of payload.split(10): split a byte list at every newline byte,
keeping empty segments, exactly like String.prototype.split. -/
def splitNewlineGo (cur : List Nat) : List Nat → List (List Nat)
  | [] => [cur.reverse]
  | b :: rest =>
    if b = 10 then cur.reverse :: splitNewlineGo [] rest
    else splitNewlineGo (b :: cur) rest

def splitNewline (payload : List Nat) : List (List Nat) :=
  splitNewlineGo [] payload

/-- payload.split(newline).forEach(line onLine if nonempty): the per-frame
line events, each tagged with the frame channel. -/
def emitPayloadLines (payload : List Nat) (ch : Channel) : List (List Nat × Channel) :=
  ((splitNewline payload).filter (fun l => decide (0 < l.length))).map (fun l => (l, ch))

/-- The while loop of the data handler in executor.js: as long as at least
8 buffered bytes remain and they announce a complete frame, consume the
frame, tag its lines stderr exactly when the type byte is 2, and continue.
Fuel-indexed so that the definition is structurally recursive; the loop
consumes at least 8 bytes per iteration, so fuel = buffer length always
suffices (drainLoop_fuel below). -/
def drainLoop : Nat → List Nat → List Nat × List (List Nat × Channel)
  | 0, buf => (buf, [])
  | fuel + 1, buf =>
    if 8 ≤ buf.length then
      if buf.length < 8 + readUInt32BE buf 4 then (buf, [])
      else
        ((drainLoop fuel (buf.drop (8 + readUInt32BE buf 4))).1,
          emitPayloadLines ((buf.drop 8).take (readUInt32BE buf 4))
              (if byteAt buf 0 = 2 then Channel.stderr else Channel.stdout)
            ++ (drainLoop fuel (buf.drop (8 + readUInt32BE buf 4))).2)
    else (buf, [])

/-- Run the while loop to completion on a buffer: result is the residual
buffer together with the ordered (line, channel) events emitted. -/
def drainBuffer (buf : List Nat) : List Nat × List (List Nat × Channel) :=
  drainLoop buf.length buf

/-- One data event of the attached stream: concatenate the chunk onto the
carried buffer, then run the while loop. -/
def onData (st : List Nat × List (List Nat × Channel)) (chunk : List Nat) :
    List Nat × List (List Nat × Channel) :=
  ((drainBuffer (st.1 ++ chunk)).1, st.2 ++ (drainBuffer (st.1 ++ chunk)).2)

/-- Feed a whole sequence of chunks through the data handler, starting from
the empty buffer, collecting all events in order. -/
def feedChunks (chunks : List (List Nat)) : List Nat × List (List Nat × Channel) :=
  chunks.foldl onData ([], [])

/-- A well-formed multiplexed frame as the engine would produce it:
8-byte header (type byte, three zero bytes, 32-bit big-endian payload
size) followed by the payload. -/
def be32 (n : Nat) : List Nat :=
  [n / 16777216 % 256, n / 65536 % 256, n / 256 % 256, n % 256]

def mkFrame (t : Nat) (payload : List Nat) : List Nat :=
  t :: 0 :: 0 :: 0 :: (be32 payload.length ++ payload)

lemma drainLoop_nil (f : Nat) : drainLoop f [] = ([], []) := by
  cases f <;> simp [drainLoop]

lemma drainLoop_of_small (f : Nat) {b : List Nat} (h : ¬ 8 ≤ b.length) :
    drainLoop f b = (b, []) := by
  cases f with
  | zero => rfl
  | succ f => simp [drainLoop, h]

lemma drainLoop_of_stuck (f : Nat) {b : List Nat} (h8 : 8 ≤ b.length)
    (hc : b.length < 8 + readUInt32BE b 4) :
    drainLoop (f + 1) b = (b, []) := by
  simp [drainLoop, h8, hc]

lemma drainLoop_fuel (f : Nat) (b : List Nat) (h : b.length ≤ f) :
    drainLoop f b = drainLoop b.length b := by
  induction f using Nat.strong_induction_on generalizing b with
  | _ f ih =>
    match f with
    | 0 =>
      have hb : b = [] := List.length_eq_zero.mp (Nat.le_zero.mp h)
      subst hb; rfl
    | f + 1 =>
      by_cases h8 : 8 ≤ b.length
      · obtain ⟨m, hm⟩ : ∃ m, b.length = m + 1 := ⟨b.length - 1, by omega⟩
        by_cases hc : b.length < 8 + readUInt32BE b 4
        · rw [drainLoop_of_stuck f h8 hc, hm, drainLoop_of_stuck m h8 hc]
        · rw [hm]
          simp only [drainLoop, if_pos h8, if_neg hc]
          have e1 : drainLoop f (b.drop (8 + readUInt32BE b 4)) =
              drainLoop (b.drop (8 + readUInt32BE b 4)).length (b.drop (8 + readUInt32BE b 4)) :=
            ih f (Nat.lt_succ_self f) _ (by simp [List.length_drop]; omega)
          have e2 : drainLoop m (b.drop (8 + readUInt32BE b 4)) =
              drainLoop (b.drop (8 + readUInt32BE b 4)).length (b.drop (8 + readUInt32BE b 4)) :=
            ih m (by omega) _ (by simp [List.length_drop]; omega)
          rw [e1, e2]
      · rw [drainLoop_of_small _ h8, drainLoop_of_small _ h8]

lemma drainBuffer_small {b : List Nat} (h : b.length < 8) :
    drainBuffer b = (b, []) :=
  drainLoop_of_small _ (by omega)

lemma drainBuffer_stuck {b : List Nat} (h8 : 8 ≤ b.length)
    (hc : b.length < 8 + readUInt32BE b 4) :
    drainBuffer b = (b, []) := by
  unfold drainBuffer
  obtain ⟨m, hm⟩ : ∃ m, b.length = m + 1 := ⟨b.length - 1, by omega⟩
  rw [hm, drainLoop_of_stuck m h8 hc]

lemma drainBuffer_step {b : List Nat} (h8 : 8 ≤ b.length)
    (hc : 8 + readUInt32BE b 4 ≤ b.length) :
    drainBuffer b =
      ((drainBuffer (b.drop (8 + readUInt32BE b 4))).1,
        emitPayloadLines ((b.drop 8).take (readUInt32BE b 4))
            (if byteAt b 0 = 2 then Channel.stderr else Channel.stdout)
          ++ (drainBuffer (b.drop (8 + readUInt32BE b 4))).2) := by
  unfold drainBuffer
  obtain ⟨m, hm⟩ : ∃ m, b.length = m + 1 := ⟨b.length - 1, by omega⟩
  rw [hm]
  simp only [drainLoop, if_pos h8, if_neg (by omega : ¬ b.length < 8 + readUInt32BE b 4)]
  rw [drainLoop_fuel m _ (by simp [List.length_drop]; omega)]

lemma byteAt_append {b : List Nat} (c : List Nat) {i : Nat} (h : i < b.length) :
    byteAt (b ++ c) i = byteAt b i :=
  List.getD_append _ _ _ _ h

lemma readUInt32BE_append {b : List Nat} (c : List Nat) (h : 8 ≤ b.length) :
    readUInt32BE (b ++ c) 4 = readUInt32BE b 4 := by
  unfold readUInt32BE
  rw [byteAt_append c (by omega), byteAt_append c (by omega),
    byteAt_append c (by omega), byteAt_append c (by omega)]

/-- Incrementality of the while loop: appending more bytes first drains the
frames already complete, then continues on the residue extended by the new
bytes.  This is the heart of the chunk-boundary invariance property. -/
lemma drainBuffer_append (b c : List Nat) :
    drainBuffer (b ++ c) =
      ((drainBuffer ((drainBuffer b).1 ++ c)).1,
        (drainBuffer b).2 ++ (drainBuffer ((drainBuffer b).1 ++ c)).2) := by
  suffices H : ∀ (n : Nat) (b c : List Nat), b.length ≤ n →
      drainBuffer (b ++ c) =
        ((drainBuffer ((drainBuffer b).1 ++ c)).1,
          (drainBuffer b).2 ++ (drainBuffer ((drainBuffer b).1 ++ c)).2) by
    exact H b.length b c (le_refl _)
  intro n
  induction n using Nat.strong_induction_on with
  | _ n ih =>
    intro b c hbn
    by_cases h8 : 8 ≤ b.length
    · by_cases hc : b.length < 8 + readUInt32BE b 4
      · rw [drainBuffer_stuck h8 hc]
        simp
      · rw [drainBuffer_step h8 (by omega)]
        have hsize : readUInt32BE (b ++ c) 4 = readUInt32BE b 4 :=
          readUInt32BE_append c h8
        have h8' : 8 ≤ (b ++ c).length := by simp; omega
        have hc' : 8 + readUInt32BE (b ++ c) 4 ≤ (b ++ c).length := by
          rw [hsize]; simp; omega
        rw [drainBuffer_step h8' hc', hsize]
        have hdrop : (b ++ c).drop (8 + readUInt32BE b 4) =
            b.drop (8 + readUInt32BE b 4) ++ c :=
          List.drop_append_of_le_length (by omega)
        have hpay : ((b ++ c).drop 8).take (readUInt32BE b 4) =
            (b.drop 8).take (readUInt32BE b 4) := by
          rw [List.drop_append_of_le_length (by omega : 8 ≤ b.length)]
          exact List.take_append_of_le_length (by simp [List.length_drop]; omega)
        have hbyte : byteAt (b ++ c) 0 = byteAt b 0 := byteAt_append c (by omega)
        rw [hdrop, hpay, hbyte]
        rcases n with _ | m
        · omega
        · rw [ih m (Nat.lt_succ_self m) _ c (by simp [List.length_drop]; omega)]
          simp
    · have hb := drainBuffer_small (show b.length < 8 by omega)
      rw [hb]
      simp

/-- The residual buffer left by the while loop holds no complete frame:
draining it again yields nothing. -/
lemma drainBuffer_residual (b : List Nat) :
    drainBuffer ((drainBuffer b).1) = ((drainBuffer b).1, []) := by
  suffices H : ∀ (n : Nat) (b : List Nat), b.length ≤ n →
      drainBuffer ((drainBuffer b).1) = ((drainBuffer b).1, []) by
    exact H b.length b (le_refl _)
  intro n
  induction n using Nat.strong_induction_on with
  | _ n ih =>
    intro b hbn
    by_cases h8 : 8 ≤ b.length
    · by_cases hc : b.length < 8 + readUInt32BE b 4
      · rw [drainBuffer_stuck h8 hc]
        exact drainBuffer_stuck h8 hc
      · rw [drainBuffer_step h8 (by omega)]
        rcases n with _ | m
        · omega
        · exact ih m (Nat.lt_succ_self m) _ (by simp [List.length_drop]; omega)
    · have hb := drainBuffer_small (show b.length < 8 by omega)
      rw [hb]
      exact hb

/-- Folding the data handler over a chunk list, starting from any fully
drained buffer, is the same as draining the concatenation in one shot. -/
lemma foldl_onData (cs : List (List Nat)) :
    ∀ (b : List Nat) (evs : List (List Nat × Channel)),
    drainBuffer b = (b, []) →
    List.foldl onData (b, evs) cs =
      ((drainBuffer (b ++ cs.flatten)).1, evs ++ (drainBuffer (b ++ cs.flatten)).2) := by
  induction cs with
  | nil =>
    intro b evs hb
    simp [hb]
  | cons c cs ih =>
    intro b evs hb
    have hstep : onData (b, evs) c =
        ((drainBuffer (b ++ c)).1, evs ++ (drainBuffer (b ++ c)).2) := rfl
    rw [List.foldl_cons, hstep,
      ih _ _ (drainBuffer_residual (b ++ c))]
    have := drainBuffer_append (b ++ c) cs.flatten
    rw [List.flatten_cons, show b ++ (c ++ cs.flatten) = (b ++ c) ++ cs.flatten by
      simp [List.append_assoc], this]
    simp [List.append_assoc]

/-- Every event the demultiplexer emits carries the channel computed from
the frame type byte, which is only ever stdout or stderr. -/
lemma drainBuffer_channels (b : List Nat) :
    ∀ ev ∈ (drainBuffer b).2, ev.2 = Channel.stdout ∨ ev.2 = Channel.stderr := by
  suffices H : ∀ (n : Nat) (b : List Nat), b.length ≤ n →
      ∀ ev ∈ (drainBuffer b).2, ev.2 = Channel.stdout ∨ ev.2 = Channel.stderr by
    exact H b.length b (le_refl _)
  intro n
  induction n using Nat.strong_induction_on with
  | _ n ih =>
    intro b hbn
    by_cases h8 : 8 ≤ b.length
    · by_cases hc : b.length < 8 + readUInt32BE b 4
      · rw [drainBuffer_stuck h8 hc]
        intro ev hev
        simp at hev
      · rw [drainBuffer_step h8 (by omega)]
        intro ev hev
        simp only [List.mem_append] at hev
        rcases hev with hev | hev
        · unfold emitPayloadLines at hev
          simp only [List.mem_map] at hev
          obtain ⟨l, _, hl⟩ := hev
          by_cases ht : byteAt b 0 = 2
          · right; simp [← hl, ht]
          · left; simp [← hl, ht]
        · rcases n with _ | m
          · omega
          · exact ih m (Nat.lt_succ_self m) _ (by simp [List.length_drop]; omega) ev hev
    · rw [drainBuffer_small (by omega)]
      intro ev hev
      simp at hev

lemma feedChunks_eq (chunks : List (List Nat)) :
    feedChunks chunks = drainBuffer chunks.flatten := by
  unfold feedChunks
  rw [foldl_onData chunks [] [] (by unfold drainBuffer; simp [drainLoop_nil])]
  simp

lemma feedChunks_channels (chunks : List (List Nat)) :
    ∀ ev ∈ (feedChunks chunks).2, ev.2 = Channel.stdout ∨ ev.2 = Channel.stderr := by
  rw [feedChunks_eq]
  exact drainBuffer_channels _

lemma mkFrame_length (t : Nat) (p : List Nat) : (mkFrame t p).length = 8 + p.length := by
  simp [mkFrame, be32]
  omega

lemma readUInt32BE_mkFrame (t : Nat) (p : List Nat) (h : p.length < 4294967296) :
    readUInt32BE (mkFrame t p) 4 = p.length := by
  have h4 : byteAt (mkFrame t p) 4 = p.length / 16777216 % 256 := rfl
  have h5 : byteAt (mkFrame t p) 5 = p.length / 65536 % 256 := rfl
  have h6 : byteAt (mkFrame t p) 6 = p.length / 256 % 256 := rfl
  have h7 : byteAt (mkFrame t p) 7 = p.length % 256 := rfl
  unfold readUInt32BE
  rw [show (4 : Nat) + 1 = 5 from rfl, show (4 : Nat) + 2 = 6 from rfl,
    show (4 : Nat) + 3 = 7 from rfl, h4, h5, h6, h7]
  omega

/-- A single complete well-formed frame is consumed whole: its payload is
split into lines, all tagged with the channel selected by the type byte. -/
lemma drainBuffer_mkFrame (t : Nat) (p : List Nat) (h : p.length < 4294967296) :
    drainBuffer (mkFrame t p) =
      ([], emitPayloadLines p (if t = 2 then Channel.stderr else Channel.stdout)) := by
  have hlen : (mkFrame t p).length = 8 + p.length := mkFrame_length t p
  have hsz := readUInt32BE_mkFrame t p h
  rw [drainBuffer_step (by omega) (by omega), hsz]
  have hdropAll : (mkFrame t p).drop (8 + p.length) = [] :=
    List.drop_eq_nil_of_le (by omega)
  have hdrop8 : (mkFrame t p).drop 8 = p := rfl
  have hb0 : byteAt (mkFrame t p) 0 = t := rfl
  rw [hdropAll, hdrop8, hb0, show drainBuffer [] = ([], []) from rfl]
  simp

/-- C4: the frame demultiplexer is invariant to chunking — feeding the
multiplexed byte stream split arbitrarily across chunk boundaries (any cut
points, including mid-header and mid-payload) produces the same ordered
sequence of (line, channel) callbacks as feeding the entire stream as one
chunk. -/
theorem demux_chunking_invariant (chunks : List (List Nat)) :
    (feedChunks chunks).2 = (drainBuffer chunks.flatten).2 := by
  rw [feedChunks_eq]

/-- C5 counterexample: a line whose bytes are split across a frame boundary
is NOT forwarded once as one complete line.  The program output bytes
"ab" then "cd" followed by a newline, delivered as two stdout frames, are
forwarded as the two fragments "ab" and "cd" instead of one line "abcd". -/
theorem demux_line_fragmented :
    (drainBuffer (mkFrame 1 [97, 98] ++ mkFrame 1 [99, 100, 10])).2
        = [([97, 98], Channel.stdout), ([99, 100], Channel.stdout)] ∧
      (drainBuffer (mkFrame 1 [97, 98] ++ mkFrame 1 [99, 100, 10])).2
        ≠ [([97, 98, 99, 100], Channel.stdout)] := by
  exact ⟨by decide, by decide⟩

/-- C5 (amended): the demultiplexer buffers partial frames across stream
chunks — a frame split at an arbitrary chunk boundary (including mid-header
and mid-payload) yields exactly the per-payload line events of the whole
frame, so a line inside one frame payload is forwarded exactly once even
when its bytes arrive in different chunks.  (Lines spanning several frames
are, per the counterexample, forwarded as one fragment per frame.) -/
theorem demux_frame_buffering (t : Nat) (payload : List Nat) (n : Nat)
    (h : payload.length < 4294967296) :
    (feedChunks [(mkFrame t payload).take n, (mkFrame t payload).drop n]).2
      = emitPayloadLines payload (if t = 2 then Channel.stderr else Channel.stdout) := by
  rw [feedChunks_eq]
  have hj : ([(mkFrame t payload).take n, (mkFrame t payload).drop n] :
      List (List Nat)).flatten = mkFrame t payload := by
    simp [List.flatten]
  rw [hj, drainBuffer_mkFrame t payload h]

theorem demux_frame_buffering_witness :
    ([97, 98, 10] : List Nat).length < 4294967296 ∧
    (feedChunks [(mkFrame 1 [97, 98, 10]).take 10, (mkFrame 1 [97, 98, 10]).drop 10]).2
      = emitPayloadLines [97, 98, 10] (if 1 = 2 then Channel.stderr else Channel.stdout) :=
  ⟨by decide, demux_frame_buffering 1 [97, 98, 10] 10 (by decide)⟩

/-- C10: for every well-formed frame the demultiplexer tags the frame lines
as stderr exactly when the header type byte equals 2 and as stdout for any
other type byte (including 0, the stdin discriminator); and on any buffer
whatsoever the channel passed to onLine by the demultiplexer is never any
value other than stdout or stderr. -/
theorem demux_channel_tagging (t : Nat) (payload b : List Nat)
    (h : payload.length < 4294967296) :
    (∀ ev ∈ (drainBuffer (mkFrame t payload)).2,
        ev.2 = if t = 2 then Channel.stderr else Channel.stdout) ∧
    (∀ ev ∈ (drainBuffer b).2, ev.2 = Channel.stdout ∨ ev.2 = Channel.stderr) := by
  constructor
  · rw [drainBuffer_mkFrame t payload h]
    intro ev hev
    unfold emitPayloadLines at hev
    simp only [List.mem_map] at hev
    obtain ⟨l, _, hl⟩ := hev
    rw [← hl]
  · exact drainBuffer_channels b

theorem demux_channel_tagging_witness :
    ([104, 105, 10] : List Nat).length < 4294967296 ∧
    ((∀ ev ∈ (drainBuffer (mkFrame 2 [104, 105, 10])).2,
        ev.2 = if 2 = 2 then Channel.stderr else Channel.stdout) ∧
      (∀ ev ∈ (drainBuffer [7]).2, ev.2 = Channel.stdout ∨ ev.2 = Channel.stderr)) :=
  ⟨by decide, demux_channel_tagging 2 [104, 105, 10] [7] (by decide)⟩

/-- One entry of the LANGUAGES registry in languages.js. -/
structure LanguageSpec where
  id : String
  label : String
  monacoLanguage : String
  fileName : String
  hasDeps : Bool
  depsLabel : Option String
  depsPlaceholder : Option String
  buildCommand : List String → String

/-- LANGUAGES.python. -/
def pythonSpec : LanguageSpec where
  id := "python"
  label := "Python"
  monacoLanguage := "python"
  fileName := "script.py"
  hasDeps := true
  depsLabel := some "pip packages"
  depsPlaceholder := some "e.g. requests langchain numpy"
  buildCommand := fun deps =>
    "cp /input/script.py . && "
      ++ (if deps.length > 0 then
            "pip install --quiet "
              ++ String.intercalate " " (deps.map (fun d => "\"" ++ d ++ "\"")) ++ " && "
          else "")
      ++ "python script.py"

/-- LANGUAGES.javascript. -/
def javascriptSpec : LanguageSpec where
  id := "javascript"
  label := "JavaScript"
  monacoLanguage := "javascript"
  fileName := "script.js"
  hasDeps := true
  depsLabel := some "npm packages"
  depsPlaceholder := some "e.g. axios lodash dayjs"
  buildCommand := fun deps =>
    "cp /input/script.js . && "
      ++ (if deps.length > 0 then
            "npm install --silent " ++ String.intercalate " " deps ++ " && "
          else "")
      ++ "node script.js"

/-- LANGUAGES.go. -/
def goSpec : LanguageSpec where
  id := "go"
  label := "Go"
  monacoLanguage := "go"
  fileName := "script.go"
  hasDeps := false
  depsLabel := none
  depsPlaceholder := none
  buildCommand := fun _ => "cp /input/script.go . && go run script.go"

/-- LANGUAGES.ruby. -/
def rubySpec : LanguageSpec where
  id := "ruby"
  label := "Ruby"
  monacoLanguage := "ruby"
  fileName := "script.rb"
  hasDeps := true
  depsLabel := some "gems"
  depsPlaceholder := some "e.g. httparty nokogiri"
  buildCommand := fun deps =>
    "cp /input/script.rb . && "
      ++ (if deps.length > 0 then
            "gem install --silent " ++ String.intercalate " " deps ++ " && "
          else "")
      ++ "ruby script.rb"

/-- LANGUAGES.java. -/
def javaSpec : LanguageSpec where
  id := "java"
  label := "Java"
  monacoLanguage := "java"
  fileName := "Main.java"
  hasDeps := false
  depsLabel := none
  depsPlaceholder := none
  buildCommand := fun _ => "cp /input/Main.java . && javac Main.java && java Main"

/-- LANGUAGES.c. -/
def cSpec : LanguageSpec where
  id := "c"
  label := "C"
  monacoLanguage := "c"
  fileName := "script.c"
  hasDeps := false
  depsLabel := none
  depsPlaceholder := none
  buildCommand := fun _ => "cp /input/script.c . && gcc script.c -o prog -lm && ./prog"

/-- LANGUAGES.cpp. -/
def cppSpec : LanguageSpec where
  id := "cpp"
  label := "C++"
  monacoLanguage := "cpp"
  fileName := "script.cpp"
  hasDeps := false
  depsLabel := none
  depsPlaceholder := none
  buildCommand := fun _ => "cp /input/script.cpp . && g++ script.cpp -o prog -lm && ./prog"

/-- Key lookup LANGUAGES[languageId] on the registry object. -/
def LANGUAGES (id : String) : Option LanguageSpec :=
  if id = "python" then some pythonSpec
  else if id = "javascript" then some javascriptSpec
  else if id = "go" then some goSpec
  else if id = "ruby" then some rubySpec
  else if id = "java" then some javaSpec
  else if id = "c" then some cSpec
  else if id = "cpp" then some cppSpec
  else none

/-- Substring test on strings (used to state facts about shell commands). -/
def strContains (hay needle : String) : Bool :=
  hay.data.tails.any (fun t => needle.data.isPrefixOf t)

/-- The character class matched by the JS regex shorthand for whitespace
(the class used in the dependency splitter and in String.prototype.trim). -/
def isJsSpace (c : Char) : Bool :=
  c = ' ' || c = '\t' || c = '\n' || c = '\r'
    || c.toNat = 11 || c.toNat = 12
    || c.toNat = 160 || c.toNat = 5760
    || (8192 <= c.toNat && c.toNat <= 8202)
    || c.toNat = 8232 || c.toNat = 8233 || c.toNat = 8239 || c.toNat = 8287
    || c.toNat = 12288 || c.toNat = 65279

/-- A character consumed by the separator class of the dependency splitter:
whitespace or comma. -/
def isSepChar (c : Char) : Bool := isJsSpace c || c = ','

/-- Splitting on maximal nonempty separator runs, exactly as value.split
with a one-or-more separator-class regex behaves: empty leading/trailing
tokens appear when the string starts/ends with a separator, and consecutive
separators are merged into one cut. -/
def splitRunsGo : Bool → List Char → List Char → List (List Char)
  | _, cur, [] => [cur.reverse]
  | inSep, cur, c :: rest =>
    if isSepChar c then
      if inSep then splitRunsGo true [] rest
      else cur.reverse :: splitRunsGo true [] rest
    else splitRunsGo false (c :: cur) rest

def splitSepRuns (s : String) : List String :=
  (splitRunsGo false [] s.data).map (fun l => String.mk l)

/-- String.prototype.trim: strip leading and trailing whitespace. -/
def jsTrim (s : String) : String :=
  String.mk (((s.data.dropWhile isJsSpace).reverse.dropWhile isJsSpace).reverse)

/-- parseDependencies of bridge-server.js (the same split-trim-filter chain
is inlined in the run-code IPC handler of main.js): split the raw free-form
dependency text on whitespace-or-comma runs, trim each token, and discard
empties. -/
def parseDependencies (value : String) : List String :=
  ((splitSepRuns value).map jsTrim).filter (fun s => s ≠ "")

/-- C9: the dependency tokenizer splits the raw free-form dependency string
on runs of whitespace and commas and discards empty tokens: " a, b  c ,"
yields exactly ["a", "b", "c"], and the empty string yields the empty
list. -/
theorem parseDependencies_examples :
    parseDependencies " a, b  c ," = ["a", "b", "c"] ∧ parseDependencies "" = [] := by
  exact ⟨by decide, by decide⟩

lemma string_prefix_concat (a m b : String) : a.data <+: (a ++ m ++ b).data := by
  rw [String.data_append, String.data_append, List.append_assoc]
  exact List.prefix_append _ _

lemma string_suffix_concat (a m b : String) : b.data <:+ (a ++ m ++ b).data := by
  rw [String.data_append]
  exact List.suffix_append _ _

/-- C7: for every supported language id, buildCommand applied to the empty
dependency list produces a command containing no install sub-command; and
for each dependency-supporting language (python, javascript, ruby),
buildCommand applied to x and y produces a command containing both tokens
joined by that language package-manager install syntax. -/
theorem buildCommand_install_stage :
    (strContains (pythonSpec.buildCommand []) "install" = false
      ∧ strContains (javascriptSpec.buildCommand []) "install" = false
      ∧ strContains (goSpec.buildCommand []) "install" = false
      ∧ strContains (rubySpec.buildCommand []) "install" = false
      ∧ strContains (javaSpec.buildCommand []) "install" = false
      ∧ strContains (cSpec.buildCommand []) "install" = false
      ∧ strContains (cppSpec.buildCommand []) "install" = false)
    ∧ strContains (pythonSpec.buildCommand ["x", "y"])
        "pip install --quiet \"x\" \"y\"" = true
    ∧ strContains (javascriptSpec.buildCommand ["x", "y"])
        "npm install --silent x y" = true
    ∧ strContains (rubySpec.buildCommand ["x", "y"])
        "gem install --silent x y" = true := by
  exact ⟨⟨by decide, by decide, by decide, by decide, by decide, by decide, by decide⟩,
    by decide, by decide, by decide⟩

/-- C8: for every supported language and every dependency list, the command
built by buildCommand begins by copying the source file from the read-only
input mount into the writable working directory, and ends by running the
program from the copied local file (the interpreter/compile-run stage names
only the local copy, never the read-only input path). -/
theorem buildCommand_copies_first (deps : List String) :
    (("cp /input/script.py . && ").data <+: (pythonSpec.buildCommand deps).data
      ∧ ("python script.py").data <:+ (pythonSpec.buildCommand deps).data
      ∧ strContains "python script.py" "/input" = false)
    ∧ (("cp /input/script.js . && ").data <+: (javascriptSpec.buildCommand deps).data
      ∧ ("node script.js").data <:+ (javascriptSpec.buildCommand deps).data
      ∧ strContains "node script.js" "/input" = false)
    ∧ (("cp /input/script.go . && ").data <+: (goSpec.buildCommand deps).data
      ∧ ("go run script.go").data <:+ (goSpec.buildCommand deps).data
      ∧ strContains "go run script.go" "/input" = false)
    ∧ (("cp /input/script.rb . && ").data <+: (rubySpec.buildCommand deps).data
      ∧ ("ruby script.rb").data <:+ (rubySpec.buildCommand deps).data
      ∧ strContains "ruby script.rb" "/input" = false)
    ∧ (("cp /input/Main.java . && ").data <+: (javaSpec.buildCommand deps).data
      ∧ ("javac Main.java && java Main").data <:+ (javaSpec.buildCommand deps).data
      ∧ strContains "javac Main.java && java Main" "/input" = false)
    ∧ (("cp /input/script.c . && ").data <+: (cSpec.buildCommand deps).data
      ∧ ("gcc script.c -o prog -lm && ./prog").data <:+ (cSpec.buildCommand deps).data
      ∧ strContains "gcc script.c -o prog -lm && ./prog" "/input" = false)
    ∧ (("cp /input/script.cpp . && ").data <+: (cppSpec.buildCommand deps).data
      ∧ ("g++ script.cpp -o prog -lm && ./prog").data <:+ (cppSpec.buildCommand deps).data
      ∧ strContains "g++ script.cpp -o prog -lm && ./prog" "/input" = false) := by
  have hgo : goSpec.buildCommand deps = "cp /input/script.go . && go run script.go" := rfl
  have hjava : javaSpec.buildCommand deps
      = "cp /input/Main.java . && javac Main.java && java Main" := rfl
  have hc : cSpec.buildCommand deps
      = "cp /input/script.c . && gcc script.c -o prog -lm && ./prog" := rfl
  have hcpp : cppSpec.buildCommand deps
      = "cp /input/script.cpp . && g++ script.cpp -o prog -lm && ./prog" := rfl
  refine ⟨⟨?_, ?_, by decide⟩, ⟨?_, ?_, by decide⟩,
    ⟨by rw [hgo]; decide, by rw [hgo]; decide, by decide⟩,
    ⟨?_, ?_, by decide⟩,
    ⟨by rw [hjava]; decide, by rw [hjava]; decide, by decide⟩,
    ⟨by rw [hc]; decide, by rw [hc]; decide, by decide⟩,
    ⟨by rw [hcpp]; decide, by rw [hcpp]; decide, by decide⟩⟩
  · exact string_prefix_concat "cp /input/script.py . && " _ "python script.py"
  · exact string_suffix_concat "cp /input/script.py . && " _ "python script.py"
  · exact string_prefix_concat "cp /input/script.js . && " _ "node script.js"
  · exact string_suffix_concat "cp /input/script.js . && " _ "node script.js"
  · exact string_prefix_concat "cp /input/script.rb . && " _ "ruby script.rb"
  · exact string_suffix_concat "cp /input/script.rb . && " _ "ruby script.rb"

/-- How the created container behaves once started: it either exits within
the 60 second deadline (wait resolves, possibly with a missing StatusCode
field), or the wait promise rejects, or the container is still running when
the deadline fires.  In the last case lateStatus is the status the
abandoned wait would eventually deliver; the orchestrator must never
consult it. -/
inductive WaitBehavior : Type
  | exits (statusCode : Option Nat)
  | waitRejects (msg : String)
  | hangs (lateStatus : Option Nat)
deriving DecidableEq, Repr

/-- The external world of one execution session: the outcome of every
fallible file-system and container-engine step, plus the byte chunks the
attached stream delivers while the program runs.  Kill and remove failures
are recorded but (mirroring the empty catch blocks of executor.js) can
never influence the observable outcome.  rmError is the outcome of the
recursive staging-directory delete in the finally block: its failure is
likewise swallowed, but then the directory remains on disk. -/
structure Env : Type where
  mkdirError : Option String := none
  writeError : Option String := none
  imageMissing : Bool := false
  createError : Option String := none
  attachError : Option String := none
  startError : Option String := none
  wait : WaitBehavior
  chunks : List (List Nat) := []
  killError : Option String := none
  removeError : Option String := none
  rmError : Option String := none
deriving DecidableEq, Repr

/-- Decode the bytes of a demultiplexed line for the onLine callback. -/
def byteText (b : List Nat) : String :=
  String.mk (b.map Char.ofNat)

/-- The system notice built in the catch block of runExecution. -/
def catchLine (timedOut : Bool) (msg : String) : String :=
  "[executor] " ++ (if timedOut then "TIMEOUT" else "ERROR") ++ ": " ++ msg

/-- Result of the try block of runExecution (steps 3 to 9): the onLine
events emitted inside it, its outcome (the exit object of wait, or the
caught exception message), and the session flags at the moment the block
ends. -/
structure TryOut : Type where
  events : List (String × Channel)
  result : Except String Nat
  containerCreated : Bool
  killAttempted : Bool
  timedOut : Bool
deriving Repr

/-- Steps 3 to 9 of runExecution: image check, container creation, attach,
stream demultiplexing, start, and the race between container exit and the
60 second timeout. -/
def tryBody (env : Env) : TryOut :=
  if env.imageMissing then
    { events := []
      result := Except.error
        "Base image 'executor-base:latest' not found. Run: node build-image.js"
      containerCreated := false, killAttempted := false, timedOut := false }
  else
    match env.createError with
    | some e =>
      { events := [], result := Except.error e
        containerCreated := false, killAttempted := false, timedOut := false }
    | none =>
      match env.attachError with
      | some e =>
        { events := [("[executor] Container created", Channel.system)]
          result := Except.error e
          containerCreated := true, killAttempted := false, timedOut := false }
      | none =>
        match env.startError with
        | some e =>
          { events := [("[executor] Container created", Channel.system)]
            result := Except.error e
            containerCreated := true, killAttempted := false, timedOut := false }
        | none =>
          let streamEvents :=
            ((feedChunks env.chunks).2).map (fun ev => (byteText ev.1, ev.2))
          let started :=
            [("[executor] Container created", Channel.system),
             ("[executor] Execution started", Channel.system)] ++ streamEvents
          match env.wait with
          | WaitBehavior.exits statusCode =>
            let exitCode := statusCode.getD 1
            { events := started ++
                (if exitCode = 0 then
                  [("[executor] Completed successfully", Channel.system)]
                 else
                  [("[executor] Exited with code " ++ toString exitCode, Channel.system)])
              result := Except.ok exitCode
              containerCreated := true, killAttempted := false, timedOut := false }
          | WaitBehavior.waitRejects msg =>
            { events := started, result := Except.error msg
              containerCreated := true, killAttempted := false, timedOut := false }
          | WaitBehavior.hangs _ =>
            { events := started
              result := Except.error "Execution exceeded 60s timeout"
              containerCreated := true, killAttempted := true, timedOut := true }

/-- The observable outcome of one runExecution call.  outcome is Except.ok
exitCode when the returned promise resolves and Except.error msg when an
exception escapes the orchestrator (a rejected promise reaching the
caller).  trace is the full ordered sequence of onLine callbacks.
stagingExists records whether the per-session staging directory is still on
disk after the call ends. -/
structure RunResult : Type where
  outcome : Except String Nat
  trace : List (String × Channel)
  timedOut : Bool
  containerCreated : Bool
  removeAttempted : Bool
  killAttempted : Bool
  stagingCreated : Bool
  stagingExists : Bool
deriving Repr

/-- runExecution of executor.js.  The unknown-language check returns before
any staging is written; the staging mkdir and source write run BEFORE the
try block, so an exception there escapes; from the image check onward every
exception is caught, converted to a system notice and exit code 1; the
finally block always force-removes the container when one was created
(ignoring removal errors), emits the destroyed notice in that case, and
recursively deletes the staging directory, swallowing deletion errors: on
a deletion error the call still resolves but the directory remains. -/
def runExecution (env : Env) (code : String) (languageId : String)
    (dependencies : List String) : RunResult :=
  match LANGUAGES languageId with
  | none =>
    { outcome := Except.ok 1
      trace := [("[executor] Unknown language: " ++ languageId, Channel.system)]
      timedOut := false, containerCreated := false, removeAttempted := false
      killAttempted := false, stagingCreated := false, stagingExists := false }
  | some lang =>
    match env.mkdirError with
    | some e =>
      { outcome := Except.error e, trace := []
        timedOut := false, containerCreated := false, removeAttempted := false
        killAttempted := false, stagingCreated := false, stagingExists := false }
    | none =>
      match env.writeError with
      | some e =>
        { outcome := Except.error e, trace := []
          timedOut := false, containerCreated := false, removeAttempted := false
          killAttempted := false, stagingCreated := true, stagingExists := true }
      | none =>
        let pre := [("[executor] Language: " ++ lang.label, Channel.system)] ++
          (if dependencies.length > 0 then
            [("[executor] Installing: " ++ String.intercalate ", " dependencies,
              Channel.system)]
           else [])
        let shellCmd := lang.buildCommand dependencies
        let b := tryBody env
        let caught : Except String Nat × List (String × Channel) :=
          match b.result with
          | Except.ok c => (Except.ok c, [])
          | Except.error m => (Except.ok 1, [(catchLine b.timedOut m, Channel.system)])
        { outcome := caught.1
          trace := pre ++ b.events ++ caught.2 ++
            (if b.containerCreated then
              [("[executor] Container destroyed", Channel.system)]
             else [])
          timedOut := b.timedOut
          containerCreated := b.containerCreated
          removeAttempted := b.containerCreated
          killAttempted := b.killAttempted
          stagingCreated := true
          stagingExists := env.rmError.isSome }

/-- Observable side effects of the transport-level run handlers.  bodyRead
marks awaiting the request body; executorInvoked marks the call into the
orchestrator; stagingWritten marks that the invoked run created its staging
directory. -/
inductive BridgeEffect : Type
  | bodyRead
  | executorInvoked
  | stagingWritten
deriving DecidableEq, Repr

/-- A parsed run payload; a missing field models both absence and a value
of the wrong type, exactly the cases normalizeRunPayload maps to the empty
string. -/
structure RunPayload : Type where
  code : Option String := none
  languageId : Option String := none
  dependencies : Option String := none
deriving DecidableEq, Repr

/-- normalizeRunPayload of bridge-server.js. -/
def normalizeRunPayload (p : RunPayload) : String × String × String :=
  (p.code.getD "", p.languageId.getD "", p.dependencies.getD "")

/-- The JSON reply of the POST /run route. -/
structure RunReply : Type where
  status : Nat
  error : Option String := none
  exitCode : Option Nat := none
  lines : List (String × Channel) := []
deriving Repr

/-- The POST /run route of bridge-server.js: the isRunning gate is checked
before the body is read; afterwards the body is parsed, the code field
validated, and the orchestrator invoked with the tokenized dependencies.
Returns the reply, the effect trace, and the isRunning flag after the
handler finishes. -/
def handleRunRoute (isRunning : Bool) (rawBody : Except String RunPayload)
    (env : Env) : RunReply × List BridgeEffect × Bool :=
  if isRunning then
    ({ status := 409, error := some "An execution is already in progress" },
      [], isRunning)
  else
    match rawBody with
    | Except.error e =>
      ({ status := 400, error := some ("Invalid request: " ++ e) },
        [BridgeEffect.bodyRead], false)
    | Except.ok payload =>
      let p := normalizeRunPayload payload
      let deps := parseDependencies p.2.2
      if jsTrim p.1 = "" then
        ({ status := 400, error := some "Code is required" },
          [BridgeEffect.bodyRead], false)
      else
        let r := runExecution env p.1 p.2.1 deps
        let fx := [BridgeEffect.bodyRead, BridgeEffect.executorInvoked] ++
          (if r.stagingCreated then [BridgeEffect.stagingWritten] else [])
        match r.outcome with
        | Except.ok c =>
          ({ status := 200, exitCode := some c, lines := r.trace }, fx, false)
        | Except.error m =>
          ({ status := 500, error := some m, lines := r.trace }, fx, false)

/-- The reply object of the run-code IPC handler of main.js. -/
structure IpcReply : Type where
  exitCode : Option Nat := none
  error : Option String := none
deriving DecidableEq, Repr

/-- The run-code IPC handler of main.js: the isRunning gate is checked
first; otherwise the dependency text is tokenized (the same
split-trim-filter chain as parseDependencies) and the orchestrator
invoked. -/
def handleRunCode (isRunning : Bool) (code languageId dependencies : String)
    (env : Env) : IpcReply × List BridgeEffect :=
  if isRunning then
    ({ error := some "An execution is already in progress" }, [])
  else
    let deps := parseDependencies dependencies
    let r := runExecution env code languageId deps
    let fx := [BridgeEffect.executorInvoked] ++
      (if r.stagingCreated then [BridgeEffect.stagingWritten] else [])
    match r.outcome with
    | Except.ok c => ({ exitCode := some c }, fx)
    | Except.error m => ({ error := some m }, fx)

/-- C6: a run requested while another execution is in flight returns the
already-running rejection immediately and performs no side effects at all
for the second request — the effect trace is empty, so in particular no
staging directory is written and the orchestrator is never invoked.  This
holds for the HTTP /run route (which does not even read the request body)
and for the run-code IPC handler alike. -/
theorem run_gate_concurrent (rawBody : Except String RunPayload) (env : Env)
    (code languageId dependencies : String) :
    handleRunRoute true rawBody env
      = ({ status := 409, error := some "An execution is already in progress" },
          [], true)
    ∧ handleRunCode true code languageId dependencies env
      = ({ error := some "An execution is already in progress" }, []) :=
  ⟨rfl, rfl⟩

lemma str_append_ne (p m q : String) (k : Nat) (hp : k ≤ p.data.length)
    (h : p.data.take k ≠ q.data.take k) : p ++ m ≠ q := by
  intro he
  apply h
  have hd : p.data ++ m.data = q.data := by
    rw [← String.data_append, he]
  rw [← hd, List.take_append_of_le_length hp]

lemma str_ne_append (q p m : String) (k : Nat) (hp : k ≤ p.data.length)
    (h : q.data.take k ≠ p.data.take k) : q ≠ p ++ m :=
  fun he => str_append_ne p m q k hp (fun h2 => h h2.symm) he.symm

lemma str_append_ne_append (p m q n : String) (k : Nat)
    (hp : k ≤ p.data.length) (hq : k ≤ q.data.length)
    (h : p.data.take k ≠ q.data.take k) : p ++ m ≠ q ++ n := by
  intro he
  apply h
  have hd : p.data ++ m.data = q.data ++ n.data := by
    rw [← String.data_append, ← String.data_append, he]
  calc p.data.take k
      = (p.data ++ m.data).take k := (List.take_append_of_le_length hp).symm
    _ = (q.data ++ n.data).take k := by rw [hd]
    _ = q.data.take k := List.take_append_of_le_length hq

lemma destroyed_ne_unknown (s : String) :
    "[executor] Container destroyed" ≠ "[executor] Unknown language: " ++ s :=
  str_ne_append _ _ _ 12 (by decide) (by decide)

lemma destroyed_ne_language (s : String) :
    "[executor] Container destroyed" ≠ "[executor] Language: " ++ s :=
  str_ne_append _ _ _ 12 (by decide) (by decide)

lemma destroyed_ne_installing (s : String) :
    "[executor] Container destroyed" ≠ "[executor] Installing: " ++ s :=
  str_ne_append _ _ _ 12 (by decide) (by decide)

lemma destroyed_ne_catch (t : Bool) (m : String) :
    "[executor] Container destroyed" ≠ catchLine t m := by
  cases t <;> simp only [catchLine] <;>
    exact str_ne_append _ _ _ 12 (by decide) (by decide)

lemma exited_ne_language (a b : String) :
    "[executor] Exited with code " ++ a ≠ "[executor] Language: " ++ b :=
  str_append_ne_append _ _ _ _ 12 (by decide) (by decide) (by decide)

lemma exited_ne_installing (a b : String) :
    "[executor] Exited with code " ++ a ≠ "[executor] Installing: " ++ b :=
  str_append_ne_append _ _ _ _ 12 (by decide) (by decide) (by decide)

lemma exited_ne_created (a : String) :
    "[executor] Exited with code " ++ a ≠ "[executor] Container created" :=
  str_append_ne _ _ _ 12 (by decide) (by decide)

lemma exited_ne_started (a : String) :
    "[executor] Exited with code " ++ a ≠ "[executor] Execution started" :=
  str_append_ne _ _ _ 14 (by decide) (by decide)

lemma exited_ne_catch (a : String) (t : Bool) (m : String) :
    "[executor] Exited with code " ++ a ≠ catchLine t m := by
  cases t
  · simp only [catchLine]
    exact str_append_ne_append _ _ _ _ 13 (by decide) (by decide) (by decide)
  · simp only [catchLine]
    exact str_append_ne_append _ _ _ _ 12 (by decide) (by decide) (by decide)

lemma exited_ne_destroyed (a : String) :
    "[executor] Exited with code " ++ a ≠ "[executor] Container destroyed" :=
  str_append_ne _ _ _ 12 (by decide) (by decide)

lemma completed_ne_language (b : String) :
    "[executor] Completed successfully" ≠ "[executor] Language: " ++ b :=
  str_ne_append _ _ _ 12 (by decide) (by decide)

lemma completed_ne_installing (b : String) :
    "[executor] Completed successfully" ≠ "[executor] Installing: " ++ b :=
  str_ne_append _ _ _ 12 (by decide) (by decide)

lemma completed_ne_catch (t : Bool) (m : String) :
    "[executor] Completed successfully" ≠ catchLine t m := by
  cases t <;> simp only [catchLine] <;>
    exact str_ne_append _ _ _ 12 (by decide) (by decide)

lemma stream_event_ne_system {chunks : List (List Nat)} {ev : List Nat × Channel}
    (h : ev ∈ (feedChunks chunks).2) (s : String) :
    (byteText ev.1, ev.2) ≠ (s, Channel.system) := by
  intro he
  have h2 : ev.2 = Channel.system := congrArg Prod.snd he
  rcases feedChunks_channels chunks ev h with h3 | h3 <;> rw [h3] at h2 <;>
    exact Channel.noConfusion h2

lemma tryBody_not_created (env : Env) (h : (tryBody env).containerCreated = false) :
    (tryBody env).events = [] ∧ (tryBody env).timedOut = false := by
  cases himg : env.imageMissing <;>
  cases hcr : env.createError <;>
  cases hat : env.attachError <;>
  cases hst : env.startError <;>
  cases hw : env.wait <;>
  simp_all [tryBody]

lemma tryBody_hangs (env : Env) (s : Option Nat)
    (h3 : env.imageMissing = false) (h4 : env.createError = none)
    (h5 : env.attachError = none) (h6 : env.startError = none) :
    tryBody { env with wait := WaitBehavior.hangs s } =
      { events := [("[executor] Container created", Channel.system),
            ("[executor] Execution started", Channel.system)] ++
            ((feedChunks env.chunks).2).map (fun ev => (byteText ev.1, ev.2))
        result := Except.error "Execution exceeded 60s timeout"
        containerCreated := true, killAttempted := true, timedOut := true } := by
  simp [tryBody, h3, h4, h5, h6]

/-- A well-behaved environment used to instantiate theorems with
hypotheses: every external step succeeds and the program exits 0. -/
def envOk : Env := { wait := WaitBehavior.exits (some 0) }

/-- C1 counterexample: an exception thrown while creating the staging
directory (fs.mkdirSync runs BEFORE the try block of runExecution) escapes
the orchestrator as a rejected promise — the call does not resolve with a
structured result, and not a single onLine line is emitted. -/
def envMkdirFails : Env :=
  { mkdirError := some "ENOSPC: no space left on device"
    wait := WaitBehavior.exits (some 0) }

theorem runExecution_escape :
    (runExecution envMkdirFails "print(1)" "python" []).outcome
        = Except.error "ENOSPC: no space left on device"
      ∧ (runExecution envMkdirFails "print(1)" "python" []).trace = [] :=
  ⟨rfl, rfl⟩

/-- C1 (amended): provided the staging-area file-system writes succeed
(they precede the try block, so their exceptions escape), every other
failure — unknown language, missing base image, any container-engine error,
timeout — is caught inside runExecution and converted into a structured
resolved result, and every call, in particular every failure path, emits at
least one system-channel line via onLine before resolving. -/
theorem runExecution_no_escape (env : Env) (code languageId : String)
    (deps : List String) (h1 : env.mkdirError = none) (h2 : env.writeError = none) :
    (∃ c, (runExecution env code languageId deps).outcome = Except.ok c) ∧
    (∃ e ∈ (runExecution env code languageId deps).trace, e.2 = Channel.system) := by
  cases hL : LANGUAGES languageId with
  | none =>
    constructor
    · exact ⟨1, by simp [runExecution, hL]⟩
    · exact ⟨("[executor] Unknown language: " ++ languageId, Channel.system),
        by simp [runExecution, hL], rfl⟩
  | some lang =>
    constructor
    · cases hbr : (tryBody env).result with
      | ok c => exact ⟨c, by simp [runExecution, hL, h1, h2, hbr]⟩
      | error m => exact ⟨1, by simp [runExecution, hL, h1, h2, hbr]⟩
    · exact ⟨("[executor] Language: " ++ lang.label, Channel.system),
        by simp [runExecution, hL, h1, h2], rfl⟩

theorem runExecution_no_escape_witness :
    (envOk.mkdirError = none ∧ envOk.writeError = none) ∧
    ((∃ c, (runExecution envOk "print(1)" "python" []).outcome = Except.ok c) ∧
      (∃ e ∈ (runExecution envOk "print(1)" "python" []).trace,
        e.2 = Channel.system)) :=
  ⟨⟨rfl, rfl⟩, runExecution_no_escape envOk "print(1)" "python" [] rfl rfl⟩

def envWriteFails : Env :=
  { writeError := some "EACCES: permission denied"
    wait := WaitBehavior.exits (some 0) }

/-- C2 counterexample: if writing the source file throws (an error
occurring before the container starts), the staging directory has already
been created, the exception escapes the try-finally (which has not been
entered yet), and the staging directory still exists when the call ends. -/
theorem runExecution_staging_left :
    (runExecution envWriteFails "print(1)" "python" []).stagingCreated = true
      ∧ (runExecution envWriteFails "print(1)" "python" []).stagingExists = true
      ∧ (runExecution envWriteFails "print(1)" "python" []).outcome
          = Except.error "EACCES: permission denied" :=
  ⟨rfl, rfl, rfl⟩

/-- C2 (amended): provided the staging-area file-system writes succeed,
every terminal outcome of runExecution (success, non-zero exit, timeout,
and any caught error before the container starts) attempts a forced
container removal exactly when a container was created and emits the
container-destroyed notice exactly when a container was created; the
staging directory still exists afterwards exactly when it was created and
its recursive deletion failed — the finally block swallows the deletion
error, so on a successful delete the directory is gone, while a delete
error leaves it behind although the call still resolves.  When the staging
write itself throws, the call rejects and a created staging directory is
left behind (see the counterexample). -/
theorem runExecution_cleanup (env : Env) (code languageId : String)
    (deps : List String) (h1 : env.mkdirError = none) (h2 : env.writeError = none) :
    (runExecution env code languageId deps).stagingExists
        = ((runExecution env code languageId deps).stagingCreated
            && env.rmError.isSome) ∧
    (runExecution env code languageId deps).removeAttempted
      = (runExecution env code languageId deps).containerCreated ∧
    ((("[executor] Container destroyed", Channel.system)
        ∈ (runExecution env code languageId deps).trace)
      ↔ (runExecution env code languageId deps).containerCreated = true) := by
  cases hL : LANGUAGES languageId with
  | none =>
    refine ⟨by simp [runExecution, hL], by simp [runExecution, hL], ?_⟩
    simp [runExecution, hL, Prod.ext_iff, destroyed_ne_unknown languageId]
  | some lang =>
    refine ⟨by simp [runExecution, hL, h1, h2], by simp [runExecution, hL, h1, h2], ?_⟩
    cases hcc : (tryBody env).containerCreated with
    | true => simp [runExecution, hL, h1, h2, hcc]
    | false =>
      obtain ⟨hev, htm⟩ := tryBody_not_created env hcc
      cases hbr : (tryBody env).result with
      | ok c =>
        by_cases hd : deps.length > 0 <;>
          simp [runExecution, hL, h1, h2, hcc, hev, htm, hbr, hd, Prod.ext_iff,
            destroyed_ne_language lang.label,
            destroyed_ne_installing (String.intercalate ", " deps)]
      | error m =>
        by_cases hd : deps.length > 0 <;>
          simp [runExecution, hL, h1, h2, hcc, hev, htm, hbr, hd, Prod.ext_iff,
            destroyed_ne_language lang.label,
            destroyed_ne_installing (String.intercalate ", " deps),
            destroyed_ne_catch false m]

def envRmFails : Env :=
  { wait := WaitBehavior.exits (some 0)
    rmError := some "EBUSY: resource busy or locked" }

theorem runExecution_cleanup_witness :
    (envRmFails.mkdirError = none ∧ envRmFails.writeError = none) ∧
    ((runExecution envRmFails "print(1)" "python" []).stagingExists
        = ((runExecution envRmFails "print(1)" "python" []).stagingCreated
            && envRmFails.rmError.isSome) ∧
      (runExecution envRmFails "print(1)" "python" []).removeAttempted
        = (runExecution envRmFails "print(1)" "python" []).containerCreated ∧
      ((("[executor] Container destroyed", Channel.system)
          ∈ (runExecution envRmFails "print(1)" "python" []).trace)
        ↔ (runExecution envRmFails "print(1)" "python" []).containerCreated = true)) :=
  ⟨⟨rfl, rfl⟩, runExecution_cleanup envRmFails "print(1)" "python" [] rfl rfl⟩

/-- C3: if the container does not exit within the fixed 60-second deadline,
runExecution marks the session timed-out, forcibly kills the container,
emits a TIMEOUT-prefixed system notice, resolves with failure exit code 1,
and emits no exit-code-based notice (neither the success notice nor any
numeric exit-code notice); the exit-code future is abandoned — whatever
status the abandoned wait would later deliver, the result is identical. -/
theorem runExecution_timeout (env : Env) (s s2 : Option Nat)
    (code languageId : String) (deps : List String) (lang : LanguageSpec)
    (hL : LANGUAGES languageId = some lang)
    (h1 : env.mkdirError = none) (h2 : env.writeError = none)
    (h3 : env.imageMissing = false) (h4 : env.createError = none)
    (h5 : env.attachError = none) (h6 : env.startError = none) :
    (runExecution { env with wait := WaitBehavior.hangs s }
        code languageId deps).timedOut = true
    ∧ (runExecution { env with wait := WaitBehavior.hangs s }
        code languageId deps).killAttempted = true
    ∧ (runExecution { env with wait := WaitBehavior.hangs s }
        code languageId deps).outcome = Except.ok 1
    ∧ ("[executor] TIMEOUT: Execution exceeded 60s timeout", Channel.system)
        ∈ (runExecution { env with wait := WaitBehavior.hangs s }
            code languageId deps).trace
    ∧ (∀ n : Nat, ("[executor] Exited with code " ++ toString n, Channel.system)
        ∉ (runExecution { env with wait := WaitBehavior.hangs s }
            code languageId deps).trace)
    ∧ ("[executor] Completed successfully", Channel.system)
        ∉ (runExecution { env with wait := WaitBehavior.hangs s }
            code languageId deps).trace
    ∧ runExecution { env with wait := WaitBehavior.hangs s } code languageId deps
        = runExecution { env with wait := WaitBehavior.hangs s2 } code languageId deps := by
  have htb := tryBody_hangs env s h3 h4 h5 h6
  have htb2 := tryBody_hangs env s2 h3 h4 h5 h6
  simp only [h1, h2] at htb htb2
  have hcl : catchLine true "Execution exceeded 60s timeout"
      = "[executor] TIMEOUT: Execution exceeded 60s timeout" := by decide
  refine ⟨?_, ?_, ?_, ?_, ?_, ?_, ?_⟩
  · simp [runExecution, hL, h1, h2, htb]
  · simp [runExecution, hL, h1, h2, htb]
  · simp [runExecution, hL, h1, h2, htb]
  · simp [runExecution, hL, h1, h2, htb, hcl]
  · intro n
    have hneT : "[executor] Exited with code " ++ toString n
        ≠ "[executor] TIMEOUT: Execution exceeded 60s timeout" :=
      str_append_ne _ _ _ 12 (by decide) (by decide)
    by_cases hd : deps.length > 0 <;>
      simp [runExecution, hL, h1, h2, htb, hcl, hd, Prod.ext_iff, not_or,
        exited_ne_language (toString n) lang.label,
        exited_ne_installing (toString n) (String.intercalate ", " deps),
        exited_ne_created (toString n), exited_ne_started (toString n),
        hneT, exited_ne_destroyed (toString n)] <;>
      (intro x hx;
        exact absurd (feedChunks_channels env.chunks (x, Channel.system) hx) (by simp))
  · have hne1 : "[executor] Completed successfully"
        ≠ "[executor] Container created" := by decide
    have hne2 : "[executor] Completed successfully"
        ≠ "[executor] Execution started" := by decide
    have hne3 : "[executor] Completed successfully"
        ≠ "[executor] Container destroyed" := by decide
    have hne4 : "[executor] Completed successfully"
        ≠ "[executor] TIMEOUT: Execution exceeded 60s timeout" := by decide
    by_cases hd : deps.length > 0 <;>
      simp [runExecution, hL, h1, h2, htb, hcl, hd, Prod.ext_iff, not_or,
        completed_ne_language lang.label,
        completed_ne_installing (String.intercalate ", " deps),
        hne1, hne2, hne3, hne4] <;>
      (intro x hx;
        exact absurd (feedChunks_channels env.chunks (x, Channel.system) hx) (by simp))
  · simp [runExecution, hL, h1, h2, htb, htb2]

theorem runExecution_timeout_witness :
    (LANGUAGES "python" = some pythonSpec
      ∧ envOk.mkdirError = none ∧ envOk.writeError = none
      ∧ envOk.imageMissing = false ∧ envOk.createError = none
      ∧ envOk.attachError = none ∧ envOk.startError = none)
    ∧ ((runExecution { envOk with wait := WaitBehavior.hangs none }
          "while True: pass" "python" []).timedOut = true
      ∧ (runExecution { envOk with wait := WaitBehavior.hangs none }
          "while True: pass" "python" []).killAttempted = true
      ∧ (runExecution { envOk with wait := WaitBehavior.hangs none }
          "while True: pass" "python" []).outcome = Except.ok 1
      ∧ ("[executor] TIMEOUT: Execution exceeded 60s timeout", Channel.system)
          ∈ (runExecution { envOk with wait := WaitBehavior.hangs none }
              "while True: pass" "python" []).trace
      ∧ (∀ n : Nat, ("[executor] Exited with code " ++ toString n, Channel.system)
          ∉ (runExecution { envOk with wait := WaitBehavior.hangs none }
              "while True: pass" "python" []).trace)
      ∧ ("[executor] Completed successfully", Channel.system)
          ∉ (runExecution { envOk with wait := WaitBehavior.hangs none }
              "while True: pass" "python" []).trace
      ∧ runExecution { envOk with wait := WaitBehavior.hangs none }
            "while True: pass" "python" []
          = runExecution { envOk with wait := WaitBehavior.hangs (some 7) }
              "while True: pass" "python" []) :=
  ⟨⟨rfl, rfl, rfl, rfl, rfl, rfl, rfl⟩,
    runExecution_timeout envOk none (some 7) "while True: pass" "python" []
      pythonSpec rfl rfl rfl rfl rfl rfl rfl⟩

theorem demux_chunking_invariant_witness :
    (feedChunks [[1, 0, 0, 0, 0], [0, 0, 3, 104, 105, 10]]).2
      = (drainBuffer ([[1, 0, 0, 0, 0], [0, 0, 3, 104, 105, 10]] :
          List (List Nat)).flatten).2 :=
  demux_chunking_invariant [[1, 0, 0, 0, 0], [0, 0, 3, 104, 105, 10]]

theorem run_gate_concurrent_witness :
    handleRunRoute true (Except.ok { code := some "print(1)" }) envOk
      = ({ status := 409, error := some "An execution is already in progress" },
          [], true) :=
  (run_gate_concurrent (Except.ok { code := some "print(1)" }) envOk
    "print(1)" "python" "").1

theorem buildCommand_copies_first_witness :
    ("cp /input/script.py . && ").data <+: (pythonSpec.buildCommand ["x", "y"]).data
      ∧ ("python script.py").data <:+ (pythonSpec.buildCommand ["x", "y"]).data
      ∧ strContains "python script.py" "/input" = false :=
  (buildCommand_copies_first ["x", "y"]).1
